import Mathlib

/-!
Verification of the streaming core of the OmniAsk repository.

The development shallowly embeds, over `List Char` byte/text streams:

* the `stream-ai` Supabase edge function (`supabase/functions/stream-ai/index.ts`):
  per-provider SSE decode loops (`streamOpenAI`, `streamAnthropic`, `streamGemini`),
  the `makeStream` exception wrapper and the request handler's credential resolution;
* the transport client (`src/services/aiService.ts`): `realStream`'s SSE decode loop,
  `mockStream`'s token production and `streamAIResponse`'s mode selection;
* the session orchestrator (`src/hooks/useAIStreaming.ts`): provider state records,
  `submitQuestion`, `retryProvider`, `resetResponses` and a small-step scheduler for
  the concurrently running `runProvider` loops;
* the focused conversation's `sendMessage` flow (`src/components/FocusedConversation.tsx`).

JavaScript `JSON.parse` is embedded as an executable JSON parser, and JS string
operations (`trim`, `split('\n')`, `split(/(\s+)/)`, `startsWith`) as `List Char`
functions mirroring their semantics.
-/

namespace OmniAsk

/- ═══════════════ JS-style character/string helpers ═══════════════ -/

/-- Left brace character, kept abstract as a code point. -/
def lbrace : Char := Char.ofNat 123

/-- Right brace character, kept abstract as a code point. -/
def rbrace : Char := Char.ofNat 125

/-- Whitespace as matched by JavaScript's `\s` character class (common subset). -/
def isJsWs (c : Char) : Bool :=
  c = ' ' || c = '\t' || c = '\n' || c = '\r' || c = '\x0b' || c = '\x0c' || c = ' '

/-- JavaScript `String.prototype.trim` on character lists. -/
def trimJs (l : List Char) : List Char :=
  ((l.dropWhile isJsWs).reverse.dropWhile isJsWs).reverse

/-- JavaScript `question.trim()` on `String`. -/
def jsTrim (s : String) : String := ⟨trimJs s.data⟩

/-- JavaScript `line.startsWith(p)`. -/
def startsWithCh (p l : List Char) : Bool := l.take p.length == p

/- ═══════════════ A model of JavaScript's JSON values and JSON.parse ═══════════════ -/

/-- JSON values as produced by `JSON.parse`. Numbers keep their raw source text. -/
inductive Json where
  | null
  | bool (b : Bool)
  | num (raw : List Char)
  | str (s : List Char)
  | arr (elems : List Json)
  | obj (fields : List (List Char × Json))

/-- JSON structural whitespace (per RFC 8259, as accepted by `JSON.parse`). -/
def isJsonWs (c : Char) : Bool :=
  c = ' ' || c = '\t' || c = '\n' || c = '\r'

/-- Skip JSON structural whitespace. -/
def skipJWs : List Char → List Char
  | [] => []
  | c :: cs => if isJsonWs c then skipJWs cs else c :: cs

/-- Value of a hexadecimal digit. -/
def hexVal? (c : Char) : Option Nat :=
  if '0' ≤ c ∧ c ≤ '9' then some (c.toNat - '0'.toNat)
  else if 'a' ≤ c ∧ c ≤ 'f' then some (c.toNat - 'a'.toNat + 10)
  else if 'A' ≤ c ∧ c ≤ 'F' then some (c.toNat - 'A'.toNat + 10)
  else none

/-- Single-character JSON string escapes. -/
def unescape? (e : Char) : Option Char :=
  if e = '"' then some '"'
  else if e = '\\' then some '\\'
  else if e = '/' then some '/'
  else if e = 'b' then some '\x08'
  else if e = 'f' then some '\x0c'
  else if e = 'n' then some '\n'
  else if e = 'r' then some '\r'
  else if e = 't' then some '\t'
  else none

/-- Parse the body of a JSON string after the opening quote; returns the decoded
characters and the remainder after the closing quote. -/
def parseStrBody : List Char → Option (List Char × List Char)
  | [] => none
  | c :: cs =>
    if c = '"' then some ([], cs)
    else if c = '\\' then
      match cs with
      | [] => none
      | 'u' :: h1 :: h2 :: h3 :: h4 :: tl =>
        match hexVal? h1, hexVal? h2, hexVal? h3, hexVal? h4 with
        | some a, some b, some d, some e =>
          match parseStrBody tl with
          | some (s, r) => some (Char.ofNat (((a * 16 + b) * 16 + d) * 16 + e) :: s, r)
          | none => none
        | _, _, _, _ => none
      | e :: tl =>
        match unescape? e with
        | some ch =>
          match parseStrBody tl with
          | some (s, r) => some (ch :: s, r)
          | none => none
        | none => none
    else if c.toNat < 32 then none
    else
      match parseStrBody cs with
      | some (s, r) => some (c :: s, r)
      | none => none

/-- Parse an optional exponent part, completing a JSON number whose raw prefix is given. -/
def parseExp (raw : List Char) (cs : List Char) : Option (Json × List Char) :=
  match cs with
  | [] => some (.num raw, [])
  | c :: t =>
    if c = 'e' ∨ c = 'E' then
      let (es, t1) :=
        match t with
        | '+' :: t2 => (['+'], t2)
        | '-' :: t2 => (['-'], t2)
        | _ => ([], t)
      let ed := t1.takeWhile Char.isDigit
      if ed = [] then none
      else some (.num (raw ++ c :: (es ++ ed)), t1.dropWhile Char.isDigit)
    else some (.num raw, cs)

/-- Parse a JSON number. -/
def parseNumber (cs : List Char) : Option (Json × List Char) :=
  let (sg, cs1) :=
    match cs with
    | '-' :: t => (['-'], t)
    | _ => ([], cs)
  match cs1 with
  | [] => none
  | d :: _ =>
    if ¬ d.isDigit then none
    else
      let (ip, cs2) :=
        if d = '0' then (['0'], cs1.tail)
        else (cs1.takeWhile Char.isDigit, cs1.dropWhile Char.isDigit)
      match cs2 with
      | '.' :: t =>
        let fd := t.takeWhile Char.isDigit
        if fd = [] then none
        else parseExp (sg ++ ip ++ '.' :: fd) (t.dropWhile Char.isDigit)
      | _ => parseExp (sg ++ ip) cs2

mutual

/-- Fuel-indexed JSON value parser. -/
def parseVal : Nat → List Char → Option (Json × List Char)
  | 0, _ => none
  | fuel + 1, cs =>
    match cs with
    | [] => none
    | c :: rest =>
      if c = '"' then
        match parseStrBody rest with
        | some (s, r) => some (.str s, r)
        | none => none
      else if c = lbrace then
        match skipJWs rest with
        | c2 :: r2 => if c2 = rbrace then some (.obj [], r2) else
            match parseObjFields fuel (c2 :: r2) with
            | some (fs, r) => some (.obj fs, r)
            | none => none
        | [] => none
      else if c = '[' then
        match skipJWs rest with
        | c2 :: r2 => if c2 = ']' then some (.arr [], r2) else
            match parseArrElems fuel (c2 :: r2) with
            | some (es, r) => some (.arr es, r)
            | none => none
        | [] => none
      else if c = 't' then
        if startsWithCh "rue".data rest then some (.bool true, rest.drop 3) else none
      else if c = 'f' then
        if startsWithCh "alse".data rest then some (.bool false, rest.drop 4) else none
      else if c = 'n' then
        if startsWithCh "ull".data rest then some (.null, rest.drop 3) else none
      else parseNumber cs

/-- Fuel-indexed parser for the members of a JSON object (after any `\x7b` and whitespace). -/
def parseObjFields : Nat → List Char → Option (List (List Char × Json) × List Char)
  | 0, _ => none
  | fuel + 1, cs =>
    match cs with
    | [] => none
    | c :: rest =>
      if c = '"' then
        match parseStrBody rest with
        | some (k, r1) =>
          match skipJWs r1 with
          | ':' :: r2 =>
            match parseVal fuel (skipJWs r2) with
            | some (v, r3) =>
              match skipJWs r3 with
              | c2 :: r4 =>
                if c2 = ',' then
                  match parseObjFields fuel (skipJWs r4) with
                  | some (fs, r5) => some ((k, v) :: fs, r5)
                  | none => none
                else if c2 = rbrace then some ([(k, v)], r4)
                else none
              | [] => none
            | none => none
          | _ => none
        | none => none
      else none

/-- Fuel-indexed parser for the elements of a JSON array (after `[` and whitespace). -/
def parseArrElems : Nat → List Char → Option (List Json × List Char)
  | 0, _ => none
  | fuel + 1, cs =>
    match parseVal fuel cs with
    | some (v, r1) =>
      match skipJWs r1 with
      | c2 :: r2 =>
        if c2 = ',' then
          match parseArrElems fuel (skipJWs r2) with
          | some (es, r3) => some (v :: es, r3)
          | none => none
        else if c2 = ']' then some ([v], r2)
        else none
      | [] => none
    | none => none

end

/-- JavaScript `JSON.parse` (returning `none` where it would throw a `SyntaxError`). -/
def jsonParse (s : List Char) : Option Json :=
  match parseVal (s.length + 1) (skipJWs s) with
  | some (j, rest) => if skipJWs rest = [] then some j else none
  | none => none

/-- Member access `o.k` / `o?.k` (returns the last binding, as JS objects keep
the last duplicate key). -/
def lookupLast : List (List Char × Json) → List Char → Option Json
  | [], _ => none
  | (k', v) :: t, k =>
    match lookupLast t k with
    | some r => some r
    | none => if k' = k then some v else none

/-- JS property access on a parsed value: `undefined` on non-objects. -/
def jsGet (j : Json) (k : List Char) : Option Json :=
  match j with
  | .obj fs => lookupLast fs k
  | _ => none

/-- JS index access `a?.[i]` on a parsed value. -/
def jsIdx (j : Json) (i : Nat) : Option Json :=
  match j with
  | .arr es => es[i]?
  | _ => none

/-- JS truthiness of a parsed JSON value. -/
def truthy : Json → Bool
  | .null => false
  | .bool b => b
  | .num raw => raw.any (fun c => c.isDigit && c ≠ '0')
  | .str s => ¬ s.isEmpty
  | .arr _ => true
  | .obj _ => true

/-- Text of a parsed JSON value when used as a string (string and number payloads;
the remaining cases do not occur in the decoded streams). -/
def asText : Json → List Char
  | .str s => s
  | .num raw => raw
  | .bool true => "true".data
  | .bool false => "false".data
  | .null => "null".data
  | .arr _ => []
  | .obj _ => []

/-- Test `ev.type === lbl` for a string literal `lbl`, as strict JS equality. -/
def jsTypeIs (ev : Json) (lbl : String) : Bool :=
  match jsGet ev "type".data with
  | some (.str s) => s == lbl.data
  | _ => false

/- ═══════════════ The canonical outbound records and SSE framing ═══════════════ -/

/-- The four provider tags (`type Provider` in both the edge function and the client). -/
inductive Provider where
  | perplexity
  | gemini
  | chatgpt
  | claude
deriving DecidableEq

/-- The free-text tag of a provider, as it appears in request bodies and messages. -/
def providerName : Provider → String
  | .perplexity => "perplexity"
  | .gemini => "gemini"
  | .chatgpt => "chatgpt"
  | .claude => "claude"

/-- One outbound SSE record of the proxy's event protocol: `chunk` models
`data: \x7b"type":"chunk","content":c\x7d`, `done` the literal `data: [DONE]`,
and `errRec` `data: \x7b"type":"error","message":m\x7d` (`sseChunk`/`sseDone`/`sseError`). -/
inductive OutRec where
  | chunk (content : List Char)
  | done
  | errRec (message : List Char)
deriving DecidableEq

/-- Control outcome of handling one decoded line: keep looping, return from the
stream function, or throw an error out of it. -/
inductive Ctl where
  | go
  | stop
  | raise (msg : List Char)
deriving DecidableEq

/-- JavaScript `lines.pop() ?? ''` — the last element of the split. -/
def popLast : List (List Char) → List Char
  | [] => []
  | [h] => h
  | _ :: t => popLast t

/-- JavaScript `buf.split('\n')` (always non-empty; the last piece is the
partial trailing fragment carried over to the next read). -/
def splitNl : List Char → List (List Char)
  | [] => [[]]
  | c :: cs =>
    if c = '\n' then [] :: splitNl cs
    else
      match splitNl cs with
      | [] => [[c]]
      | h :: t => (c :: h) :: t

/- ═══════════════ Per-line behaviour of the four decode loops ═══════════════ -/

/-- Per-line body of the `streamOpenAI` read loop (also used verbatim for the
`perplexity` provider): skip non-`data:` lines, emit `[DONE]` then return on the
sentinel, skip malformed JSON, and emit a chunk for a truthy
`parsed.choices?.[0]?.delta?.content`. -/
def streamOpenAILine (line : List Char) : List OutRec × Ctl :=
  if ¬ startsWithCh "data: ".data line then ([], .go)
  else if trimJs (line.drop 6) = "[DONE]".data then ([.done], .stop)
  else
    match jsonParse (trimJs (line.drop 6)) with
      | none => ([], .go)
      | some parsed =>
        match (jsGet parsed "choices".data).bind (jsIdx · 0) |>.bind (jsGet · "delta".data)
            |>.bind (jsGet · "content".data) with
        | some content => if truthy content then ([.chunk (asText content)], .go) else ([], .go)
        | none => ([], .go)

/-- Message of the error thrown for an Anthropic `error` event:
`event.error?.message ?? 'Anthropic stream error'`. -/
def anthropicErrMsg (ev : Json) : List Char :=
  match (jsGet ev "error".data).bind (jsGet · "message".data) with
  | some .null => "Anthropic stream error".data
  | some v => asText v
  | none => "Anthropic stream error".data

/-- Per-line body of the `streamAnthropic` read loop: emit a chunk for
`content_block_delta`/`text_delta` events with truthy text, emit `[DONE]` then
return on `message_stop`, rethrow `error` events, skip malformed JSON. -/
def streamAnthropicLine (line : List Char) : List OutRec × Ctl :=
  if ¬ startsWithCh "data: ".data line then ([], .go)
  else
    match jsonParse (trimJs (line.drop 6)) with
    | none => ([], .go)
    | some event =>
      if jsTypeIs event "content_block_delta"
          && (match (jsGet event "delta".data).bind (jsGet · "type".data) with
              | some (.str s) => s == "text_delta".data
              | _ => false)
          && (match (jsGet event "delta".data).bind (jsGet · "text".data) with
              | some v => truthy v
              | none => false) then
        ([.chunk (asText (((jsGet event "delta".data).bind (jsGet · "text".data)).getD .null))], .go)
      else if jsTypeIs event "message_stop" then ([.done], .stop)
      else if jsTypeIs event "error" then ([], .raise (anthropicErrMsg event))
      else ([], .go)

/-- Per-line body of the `streamGemini` read loop: emit a chunk for a truthy
`event?.candidates?.[0]?.content?.parts?.[0]?.text`, skip everything else. -/
def streamGeminiLine (line : List Char) : List OutRec × Ctl :=
  if ¬ startsWithCh "data: ".data line then ([], .go)
  else
    match jsonParse (trimJs (line.drop 6)) with
    | none => ([], .go)
    | some event =>
      match (jsGet event "candidates".data).bind (jsIdx · 0) |>.bind (jsGet · "content".data)
          |>.bind (jsGet · "parts".data) |>.bind (jsIdx · 0) |>.bind (jsGet · "text".data) with
      | some text => if truthy text then ([.chunk (asText text)], .go) else ([], .go)
      | none => ([], .go)

/-- Per-line body of `realStream`'s decode loop in the transport client: return at
the `[DONE]` sentinel, skip malformed JSON, yield the content of `chunk` events
(a yielded text is modelled as `OutRec.chunk`), and throw on `error` events. -/
def realStreamLine (line : List Char) : List OutRec × Ctl :=
  if ¬ startsWithCh "data: ".data line then ([], .go)
  else if trimJs (line.drop 6) = "[DONE]".data then ([], .stop)
  else
    match jsonParse (trimJs (line.drop 6)) with
      | none => ([], .go)
      | some event =>
        if jsTypeIs event "chunk"
            && (match jsGet event "content".data with
                | some v => truthy v
                | none => false) then
          ([.chunk (asText ((jsGet event "content".data).getD .null))], .go)
        else if jsTypeIs event "error" then
          ([], .raise (match jsGet event "message".data with
                       | some v => asText v
                       | none => "undefined".data))
        else ([], .go)

/- ═══════════════ The shared read/decode loop ═══════════════ -/

/-- Run the loop body over the complete lines of one read, with early exit on
`stop`/`raise`; returns the records emitted and the resulting control state. -/
def procLines (h : List Char → List OutRec × Ctl) (ctl : Ctl) :
    List (List Char) → List OutRec × Ctl
  | [] => ([], ctl)
  | l :: ls =>
    match ctl with
    | .go =>
      let (es, c') := h l
      let (rest, cf) := procLines h c' ls
      (es ++ rest, cf)
    | c => ([], c)

/-- State of a decode loop between reads: records emitted so far, the carry-over
buffer, and whether the loop is still running. -/
structure DecSt where
  out : List OutRec
  buf : List Char
  ctl : Ctl
deriving DecidableEq

/-- Initial decode state (`buf = ''`, nothing emitted). -/
def initSt : DecSt := ⟨[], [], .go⟩

/-- One iteration of the `while (true)` read loop: append the read to the buffer,
split on `'\n'`, pop the trailing partial fragment back into the buffer, and feed
the complete lines to the loop body. After the stream function has returned or
thrown, further reads do not run. -/
def processRead (h : List Char → List OutRec × Ctl) (st : DecSt) (s : List Char) : DecSt :=
  match st.ctl with
  | .go =>
    let parts := splitNl (st.buf ++ s)
    let (es, c') := procLines h .go parts.dropLast
    ⟨st.out ++ es, popLast parts, c'⟩
  | _ => st

/-- Run the read loop over a whole sequence of reads. -/
def runReads (h : List Char → List OutRec × Ctl) (st : DecSt) : List (List Char) → DecSt
  | [] => st
  | r :: rs => runReads h (processRead h st r) rs

/-- Decode a full upstream byte sequence, delivered as the given reads, from the
initial state. -/
def streamRun (h : List Char → List OutRec × Ctl) (reads : List (List Char)) : DecSt :=
  runReads h initSt reads

/- ═══════════════ The stream proxy: adapter dispatch and makeStream ═══════════════ -/

/-- Line handler selected by the `switch (provider)` dispatch in the request
handler (`perplexity` reuses the OpenAI-compatible adapter). -/
def adapterHandler : Provider → (List Char → List OutRec × Ctl)
  | .chatgpt => streamOpenAILine
  | .perplexity => streamOpenAILine
  | .claude => streamAnthropicLine
  | .gemini => streamGeminiLine

/-- Upstream service name used in the non-2xx error message of each adapter. -/
def adapterErrLabel : Provider → String
  | .chatgpt => "OpenAI"
  | .perplexity => "OpenAI"
  | .claude => "Anthropic"
  | .gemini => "Gemini"

/-- Error message thrown on a non-2xx upstream response, e.g.
`` `OpenAI error ${res.status}: ${body}` ``. -/
def upstreamErrMsg (p : Provider) (status : Nat) (body : List Char) : List Char :=
  (adapterErrLabel p ++ " error " ++ toString status ++ ": ").data ++ body

/-- Result of one `streamX(apiKey, messages, controller)` call: the records it
enqueued, and `some m` when it threw the error `m` (caught by `makeStream`).
A non-2xx response (`ok = false`) throws before the read loop; otherwise the
loop runs over `reads` and, if the body ends without a sentinel, enqueues
`[DONE]` and closes. -/
def runAdapter (p : Provider) (ok : Bool) (status : Nat) (body : List Char)
    (reads : List (List Char)) : List OutRec × Option (List Char) :=
  if ¬ ok then ([], some (upstreamErrMsg p status body))
  else
    let st := streamRun (adapterHandler p) reads
    match st.ctl with
    | .go => (st.out ++ [.done], none)
    | .stop => (st.out, none)
    | .raise m => (st.out, some m)

/-- The `makeStream` wrapper: a rejection of the generator promise is caught and
serialized as one final error record before the stream closes. -/
def makeStream (r : List OutRec × Option (List Char)) : List OutRec :=
  match r.2 with
  | none => r.1
  | some m => r.1 ++ [.errRec m]

/-- Every outbound record of the proxy's SSE response for one request, over any
upstream response (`ok`/`status`/error body) and any segmentation of the
upstream bytes into reads. -/
def proxyRecords (p : Provider) (ok : Bool) (status : Nat) (body : List Char)
    (reads : List (List Char)) : List OutRec :=
  makeStream (runAdapter p ok status body reads)

/- ═══════════════ The transport client decode (realStream) ═══════════════ -/

/-- Run `realStream`'s decode loop over the proxy-response reads. In the final
state, `out` lists the yielded chunks, `ctl = .stop` means the generator returned
at `[DONE]`, `.go` that the body ended, and `.raise m` that it threw `m`. -/
def realStreamRun (reads : List (List Char)) : DecSt :=
  streamRun realStreamLine reads

/-- Texts of the chunks yielded by a decode run. -/
def clientYields (st : DecSt) : List (List Char) :=
  st.out.filterMap fun r =>
    match r with
    | .chunk s => some s
    | _ => none

/- ═══════════════ Mock streaming (aiService.ts demo mode) ═══════════════ -/

/-- The canned responses of `src/lib/mockData.ts`, two per provider. -/
def mockResponses : Provider → List String
  | .perplexity =>
    ["Based on my analysis of multiple sources, here's what I found:\n\nThe topic you're asking about has several key aspects worth exploring. According to recent research and verified sources, the main points are:\n\n1. **Primary Finding**: The data suggests a strong correlation between the variables you mentioned.\n\n2. **Supporting Evidence**: Multiple peer-reviewed studies confirm this pattern.\n\n3. **Practical Implications**: This means you can apply these insights directly to your situation.\n\nSources: Academic journals, industry reports, and expert analyses.",
     "I've searched through the latest information available:\n\nYour question touches on an evolving area. Here's the current consensus:\n\n• The mainstream view supports the conventional approach\n• However, emerging research points to alternative methods\n• Experts recommend considering both perspectives\n\nWould you like me to dive deeper into any specific aspect?"]
  | .gemini =>
    ["Great question! Let me break this down for you:\n\n**Overview**\nThis is a fascinating topic that spans multiple domains. Here's my analysis:\n\n**Key Points**\n→ The fundamental principle is straightforward\n→ Applications range from simple to complex\n→ Best practices have evolved significantly\n\n**My Recommendation**\nStart with the basics and build from there. I can provide more specific guidance if you share your particular context.\n\n*Would you like code examples or visual explanations?*",
     "Here's what I can tell you:\n\n🎯 **Direct Answer**: Yes, this is definitely possible and here's how.\n\n📚 **Background**: The concept originated in the early 2000s and has since become industry standard.\n\n💡 **Pro Tip**: Consider using the latest version for best results - it includes significant improvements.\n\nLet me know if you'd like me to elaborate on any part!"]
  | .chatgpt =>
    ["I'd be happy to help you with that!\n\nTo answer your question comprehensively:\n\n**Short Answer**: The most effective approach depends on your specific requirements, but generally speaking, option A tends to work best for most use cases.\n\n**Detailed Explanation**:\nWhen we look at this problem, there are several factors to consider:\n\n1. **Performance** - This affects how quickly you'll see results\n2. **Scalability** - Important if you plan to grow\n3. **Maintainability** - Long-term considerations matter\n\nHere's a practical example:\n```\nStep 1: Define your goals\nStep 2: Assess your resources\nStep 3: Implement incrementally\n```\n\nWould you like me to provide more specific guidance for your situation?",
     "That's an interesting question! Here's my take:\n\n**The Quick Version**: It depends on context, but here are the key considerations.\n\n**The Detailed Version**:\n\nFirst, let's establish what we're working with. The topic you're asking about has nuances that are often overlooked.\n\n*Common misconceptions:*\n- Many people assume X, but actually Y is more accurate\n- The relationship between these factors is non-linear\n\n*What I recommend:*\nStart with a clear understanding of your constraints, then work backwards from your desired outcome.\n\nFeel free to ask follow-up questions!"]
  | .claude =>
    ["Thank you for your question. Let me provide a thoughtful analysis.\n\n**Understanding the Core Issue**\n\nThis question gets at something fundamental. Rather than giving a surface-level answer, I think it's worth exploring the underlying principles.\n\n**My Perspective**\n\nThere are multiple valid approaches here, and the \"right\" answer often depends on:\n\n• Your specific constraints and requirements\n• The trade-offs you're willing to accept\n• Your long-term goals versus short-term needs\n\n**Practical Guidance**\n\nIf I were in your position, I would:\n1. Start by clearly defining success criteria\n2. Prototype the simplest viable solution\n3. Iterate based on real feedback\n\nI should note that there's some uncertainty here - the field is evolving, and best practices continue to develop. Would you like to discuss any aspect in more depth?",
     "I appreciate you asking this - it's a nuanced topic.\n\n**Key Insight**: The conventional wisdom isn't always correct here. Let me explain why.\n\n**The Standard View**\nMost resources will tell you to follow approach X. This works in many cases, but has limitations.\n\n**A More Nuanced Take**\nWhen we examine this more carefully, we find that:\n\n→ Context matters significantly\n→ Edge cases are more common than typically assumed\n→ There are emerging alternatives worth considering\n\n**My Honest Assessment**\nI'd recommend a hybrid approach that combines the reliability of traditional methods with the flexibility of newer techniques.\n\nWould you like me to elaborate on the specific trade-offs involved?"]

/-- Fuel-indexed worker for `split(/(\s+)/)`; the fuel always suffices when it
exceeds the length of the input. -/
def splitWsKeepF : Nat → List Char → List (List Char)
  | 0, l => [l]
  | fuel + 1, l =>
    match l.dropWhile (fun c => ¬ isJsWs c) with
    | [] => [l.takeWhile (fun c => ¬ isJsWs c)]
    | w :: t =>
      l.takeWhile (fun c => ¬ isJsWs c) :: (w :: t.takeWhile isJsWs) ::
        splitWsKeepF fuel (t.dropWhile isJsWs)

/-- JavaScript `text.split(/(\s+)/)`: split at maximal whitespace runs, keeping the
separators, so the result alternates (possibly empty) non-whitespace groups with
whitespace groups. -/
def splitWsKeep (l : List Char) : List (List Char) :=
  splitWsKeepF (l.length + 1) l

/-- Token sequence yielded by `mockStream(provider)` when the random draw picked
index `r` into the provider's canned responses: the text split on whitespace with
the whitespace tokens kept, yielded one by one (after per-token delays). -/
def mockStream (p : Provider) (r : Nat) : List (List Char) :=
  splitWsKeep ((mockResponses p).getD r "").data

/-- Chunks produced by the `mockStream` generator when the consumer's cancellation
signal is raised at suspension point `abortAt` (0 = before the initial thinking
pause). The generator body never consults the signal, so the parameter does not
occur on the right-hand side. -/
def mockStreamProduced (p : Provider) (r : Nat) (abortAt : Nat) : List (List Char) :=
  mockStream p r

/-- Chunks produced by the `realStream` generator: `fetch` and each `reader.read()`
receive the abort signal, so raising it at suspension point `k` makes the pending
read reject and only the first `k` reads are decoded; `none` means the signal is
never raised. -/
def realStreamProduced (reads : List (List Char)) (abortAt : Option Nat) : List (List Char) :=
  clientYields (realStreamRun (match abortAt with
    | none => reads
    | some k => reads.take k))

/-- Outcome of `streamAIResponse`: which generator the caller iterates. -/
inductive GenChoice where
  | real (p : Provider) (question : String) (accessToken : String)
  | mock (tokens : List (List Char))
deriving DecidableEq

/-- JS `Boolean(accessToken)` for an optional string (empty string is falsy). -/
def tokenTruthy : Option String → Bool
  | none => false
  | some s => ¬ s.isEmpty

/-- Mode selection of `streamAIResponse`: real mode iff Supabase is configured and
an access token is present and truthy; otherwise the mock generator for the
provider is returned, ignoring the question and conversation history (`r` is the
random draw the mock generator will make). -/
def streamAIResponse (isConfigured : Bool) (accessToken : Option String) (p : Provider)
    (question : String) (history : List (List Char)) (r : Nat) : GenChoice :=
  if isConfigured && tokenTruthy accessToken then
    .real p question (accessToken.getD "")
  else .mock (mockStream p r)

/- ═══════════════ The session orchestrator (useAIStreaming.ts) ═══════════════ -/

/-- One provider's `AIProviderState`. `hasTimestamp` models whether `timestamp`
is non-null. -/
structure AIProviderState where
  content : String
  isStreaming : Bool
  isComplete : Bool
  error : Option String
  hasTimestamp : Bool
deriving DecidableEq

/-- Entry produced by `makeInitialState(isStreaming)` for each provider. -/
def initialEntry (isStreaming : Bool) : AIProviderState :=
  ⟨"", isStreaming, false, none, false⟩

/-- The `Record<AIProvider, AIProviderState>` map, with one field per provider. -/
structure ProviderStates where
  perplexity : AIProviderState
  gemini : AIProviderState
  chatgpt : AIProviderState
  claude : AIProviderState
deriving DecidableEq

/-- Read one provider's state. -/
def ProviderStates.get (m : ProviderStates) : Provider → AIProviderState
  | .perplexity => m.perplexity
  | .gemini => m.gemini
  | .chatgpt => m.chatgpt
  | .claude => m.claude

/-- Replace one provider's state (the functional update done by `patchProvider`). -/
def ProviderStates.set (m : ProviderStates) : Provider → AIProviderState → ProviderStates
  | .perplexity, v => { m with perplexity := v }
  | .gemini, v => { m with gemini := v }
  | .chatgpt, v => { m with chatgpt := v }
  | .claude, v => { m with claude := v }

/-- `makeInitialState(isStreaming)`. -/
def makeInitialState (isStreaming : Bool) : ProviderStates :=
  ⟨initialEntry isStreaming, initialEntry isStreaming,
   initialEntry isStreaming, initialEntry isStreaming⟩

/-- The `PROVIDERS` array, in source order. -/
def PROVIDERS : List Provider := [.perplexity, .gemini, .chatgpt, .claude]

/-- Patch applied by `runProvider` when it starts:
`\x7b isStreaming: true, content: '', error: null, isComplete: false \x7d`. -/
def startPatch (st : AIProviderState) : AIProviderState :=
  { st with isStreaming := true, content := "", error := none, isComplete := false }

/-- Patch applied for each received chunk: `\x7b content \x7d` (the loop's local
accumulation replaces the stored text). -/
def chunkPatch (content : String) (st : AIProviderState) : AIProviderState :=
  { st with content := content }

/-- Patch applied when the stream ends normally. -/
def successPatch (st : AIProviderState) : AIProviderState :=
  { st with isStreaming := false, isComplete := true, hasTimestamp := true }

/-- Patch applied when the stream throws. -/
def errorPatch (msg : String) (st : AIProviderState) : AIProviderState :=
  { st with isStreaming := false, isComplete := true, error := some msg }

/-- A behaviour the environment assigns to one opened stream: the chunks it will
yield, then `none` for a normal end or `some m` for a thrown error `m`. -/
def StreamEnv := List String × Option String

/-- One suspended `runProvider(provider, question, signal)` loop: the provider and
question it was started with, the id of the `AbortController` whose signal it
holds, its local `content` accumulator, the chunks not yet delivered, the final
outcome of its stream, and whether it was started by `submitQuestion` (so that
`Promise.allSettled` awaits it) rather than by `retryProvider`. -/
structure RunTask where
  provider : Provider
  question : String
  ctrl : Nat
  acc : String
  pending : List String
  outcome : Option String
  original : Bool
deriving DecidableEq

/-- State of the `useAIStreaming` hook plus its in-flight machinery: the React
state fields, the id of the controller in `abortRef` (`none` before the first
submission), the set of aborted controller ids, a fresh-id counter, the suspended
`runProvider` loops, and the pending `Promise.allSettled` continuation of the
current batch (`batchCtrl` with `batchRemaining` unsettled original tasks). -/
structure OrchState where
  states : ProviderStates
  currentQuestion : String
  isQuerying : Bool
  nextCtrl : Nat
  currentCtrl : Option Nat
  abortedCtrls : List Nat
  tasks : List RunTask
  batchCtrl : Option Nat
  batchRemaining : Nat
deriving DecidableEq

/-- Initial hook state. -/
def initOrch : OrchState :=
  ⟨makeInitialState false, "", false, 0, none, [], [], none, 0⟩

/-- Model of `abortRef.current?.abort()`. -/
def abortCurrent (s : OrchState) : OrchState :=
  match s.currentCtrl with
  | some c => { s with abortedCtrls := c :: s.abortedCtrls }
  | none => s

/-- The `useEffect` unmount cleanup: abort the current controller. -/
def unmountCleanup (s : OrchState) : OrchState := abortCurrent s

/-- Build the task for a newly started `runProvider` loop. -/
def mkTask (p : Provider) (q : String) (c : Nat) (stream : StreamEnv) (original : Bool) :
    RunTask :=
  ⟨p, q, c, "", stream.1, stream.2, original⟩

/-- `submitQuestion(question)`: refuse blank questions and refuse while
`isQuerying`; otherwise abort the previous controller, install a fresh one, set
the question and querying flag, reset all four sessions to streaming (the
per-provider `runProvider` start patch leaves that reset state unchanged), and
start the four loops under the shared fresh signal. `env` gives the stream each
provider's request will produce. -/
def submitQuestion (s : OrchState) (q : String) (env : Provider → StreamEnv) : OrchState :=
  if jsTrim q = "" ∨ s.isQuerying then s
  else
    let s1 := abortCurrent s
    let c := s1.nextCtrl
    { s1 with
      nextCtrl := c + 1
      currentCtrl := some c
      currentQuestion := q
      isQuerying := true
      states := makeInitialState true
      tasks := s1.tasks ++ PROVIDERS.map (fun p => mkTask p q c (env p) true)
      batchCtrl := some c
      batchRemaining := PROVIDERS.length }

/-- `retryProvider(provider)`: a no-op without a stored question; otherwise start
one `runProvider` loop for that provider with the stored question, under
`abortRef.current?.signal ?? new AbortController().signal` — the existing batch
signal when one exists, else a fresh controller that is never stored. -/
def retryProvider (s : OrchState) (p : Provider) (stream : StreamEnv) : OrchState :=
  if s.currentQuestion = "" then s
  else
    match s.currentCtrl with
    | some c =>
      { s with
        states := s.states.set p (startPatch (s.states.get p))
        tasks := s.tasks ++ [mkTask p s.currentQuestion c stream false] }
    | none =>
      { s with
        states := s.states.set p (startPatch (s.states.get p))
        tasks := s.tasks ++ [mkTask p s.currentQuestion s.nextCtrl stream false]
        nextCtrl := s.nextCtrl + 1 }

/-- `resetResponses()`: abort everything in flight, reset the sessions to idle,
clear the question and the querying flag. -/
def resetResponses (s : OrchState) : OrchState :=
  let s1 := abortCurrent s
  { s1 with
    states := makeInitialState false
    currentQuestion := ""
    isQuerying := false }

/-- Settlement bookkeeping for one finished `runProvider` promise: when it was one
of the batch's four original loops, decrement the `Promise.allSettled` count and,
once all four settled with the batch controller unaborted, clear `isQuerying`. -/
def settleTask (s : OrchState) (t : RunTask) : OrchState :=
  if t.original ∧ s.batchCtrl = some t.ctrl then
    if s.batchRemaining - 1 = 0 ∧ t.ctrl ∉ s.abortedCtrls then
      { s with batchRemaining := 0, isQuerying := false }
    else { s with batchRemaining := s.batchRemaining - 1 }
  else s

/-- Body of one scheduler step on the task `t` found at index `i`. An aborted
signal makes the loop return without touching the state (`if (signal.aborted)
return`, both for a delivered chunk and for the pending `AbortError`); otherwise
the next chunk is appended to the local accumulation and patched into the
provider's state, or the loop finishes with the success or error patch. -/
def stepTaskAux (s : OrchState) (i : Nat) (t : RunTask) : OrchState :=
  if t.ctrl ∈ s.abortedCtrls then
    settleTask { s with tasks := s.tasks.eraseIdx i } t
  else
    match t.pending with
    | c :: rest =>
      { s with
        states := s.states.set t.provider (chunkPatch (t.acc ++ c) (s.states.get t.provider))
        tasks := s.tasks.set i { t with acc := t.acc ++ c, pending := rest } }
    | [] =>
      match t.outcome with
      | none =>
        settleTask
          { s with
            states := s.states.set t.provider (successPatch (s.states.get t.provider))
            tasks := s.tasks.eraseIdx i } t
      | some m =>
        settleTask
          { s with
            states := s.states.set t.provider (errorPatch m (s.states.get t.provider))
            tasks := s.tasks.eraseIdx i } t

/-- One scheduler step: resume the suspended loop at index `i` (no-op when no
such task exists). -/
def stepTask (s : OrchState) (i : Nat) : OrchState :=
  match s.tasks[i]? with
  | none => s
  | some t => stepTaskAux s i t


/- ═══════════════ The focused conversation (FocusedConversation.tsx) ═══════════════ -/

/-- Message roles. -/
inductive Role where
  | user
  | assistant
deriving DecidableEq

/-- One message of the focused conversation (ids model `crypto.randomUUID()`,
`ts` the `timestamp`). -/
structure FMsg where
  id : Nat
  role : Role
  content : String
  ts : Nat
deriving DecidableEq

/-- The fixed failure notice substituted on stream failure. -/
def failNotice : String := "Sorry, something went wrong. Please try again."

/-- `setMessages(prev => prev.map(m => m.id === i ? \x7b ...m, content \x7d : m))`. -/
def setMsgContent (l : List FMsg) (i : Nat) (content : String) : List FMsg :=
  l.map fun m => if m.id = i then { m with content := content } else m

/-- The `finally` block's timestamp refresh on the pending assistant message. -/
def setMsgTs (l : List FMsg) (i : Nat) (ts : Nat) : List FMsg :=
  l.map fun m => if m.id = i then { m with ts := ts } else m

/-- Outcome of one `sendMessage(text)` call on the message list. Parameters:
`msgs`/`isStreaming` the component state, `uid`/`aid` the fresh ids drawn for the
user and pending assistant messages, `ts`/`ts2` the clock at creation and at the
`finally` block, `chunks` the texts the opened stream yields, `fails` whether the
stream then throws instead of ending, and `abortAt = some k` that this exchange's
own controller was aborted (by a later `sendMessage` or unmount) after `k` chunks
were consumed — the loop then breaks (or the catch sees an aborted signal) and
every state update guarded by `!controller.signal.aborted` is skipped. -/
def sendMessage (msgs : List FMsg) (text : String) (isStreaming : Bool)
    (uid aid ts ts2 : Nat) (chunks : List String) (fails : Bool)
    (abortAt : Option Nat) : List FMsg :=
  if jsTrim text = "" ∨ isStreaming then msgs
  else
    let userMsg : FMsg := ⟨uid, .user, jsTrim text, ts⟩
    let base := msgs ++ [userMsg, ⟨aid, .assistant, "", ts⟩]
    let delivered :=
      match abortAt with
      | none => chunks
      | some k => chunks.take k
    let afterLoop := setMsgContent base aid (String.join delivered)
    match abortAt with
    | some _ => afterLoop
    | none =>
      let afterCatch := if fails then setMsgContent afterLoop aid failNotice else afterLoop
      setMsgTs afterCatch aid ts2

/- ═══════════════ The stream-ai request handler: credential resolution ═══════════════ -/

/-- A chat message of the canonical request. -/
structure ChatMessage where
  role : Role
  content : String
deriving DecidableEq

/-- Name of the environment secret consulted for a provider (`envKeyMap`). -/
def envKeyName : Provider → String
  | .chatgpt => "OPENAI_API_KEY"
  | .claude => "ANTHROPIC_API_KEY"
  | .gemini => "GOOGLE_AI_API_KEY"
  | .perplexity => "PERPLEXITY_API_KEY"

/-- Credential resolution `userKey ?? Deno.env.get(envKeyMap[provider])`: the
caller's stored key (as returned by `getUserApiKey`, `none` when the lookup
errored or returned nothing) takes precedence over the environment fallback. -/
def resolveApiKey (userKey : Option String) (envGet : String → Option String)
    (p : Provider) : Option String :=
  match userKey with
  | some k => some k
  | none => envGet (envKeyName p)

/-- Message of the 400 response sent when no key resolves. -/
def noKeyMsg (p : Provider) : String :=
  "No API key configured for " ++ providerName p ++ ". Add yours in Settings → API Keys."

/-- JSON body `JSON.stringify(\x7b type: 'error', message \x7d)` for a message
that needs no string escaping. -/
def errorEventBody (msg : String) : String :=
  "\x7b\"type\":\"error\",\"message\":\"" ++ msg ++ "\"\x7d"

/-- Observable outcome of the POST handler: a 400 text response for a missing
field, the 400 JSON error-event response for an unconfigured provider, or the
SSE streaming response — the only outcome that opens an upstream connection. -/
inductive HandlerRes where
  | badRequest (body : String)
  | keyError (status : Nat) (body : String)
  | sse (p : Provider) (apiKey : String) (messages : List ChatMessage)
deriving DecidableEq

/-- Number of upstream network calls a handler outcome performs. -/
def upstreamCalls : HandlerRes → Nat
  | .sse _ _ _ => 1
  | _ => 0

/-- The POST branch of the `Deno.serve` handler: validate the two required
fields, resolve the credential (stored key first, then environment), short-circuit
with the JSON error event when neither exists, else build
`conversationHistory + [\x7b role: 'user', content: question \x7d]` and dispatch
the matching adapter as an SSE response. -/
def streamAiHandler (provider? : Option Provider) (question : String)
    (conversationHistory : List ChatMessage) (userKey : Provider → Option String)
    (envGet : String → Option String) : HandlerRes :=
  match provider? with
  | none => .badRequest "Missing provider or question"
  | some p =>
    if question = "" then .badRequest "Missing provider or question"
    else
      match resolveApiKey (userKey p) envGet p with
      | none => .keyError 400 (errorEventBody (noKeyMsg p))
      | some apiKey => .sse p apiKey (conversationHistory ++ [⟨.user, question⟩])

/- ═══════════════ Fixed byte sequences and environments used by the theorems ═══════════════ -/

/-- Prepend a partial fragment onto the first piece of a split. -/
def consHead (p : List Char) : List (List Char) → List (List Char)
  | [] => [p]
  | h :: t => (p ++ h) :: t

/-- Observational equivalence of decode states: same output and control state,
and — while still running — the same carry-over buffer. -/
def DecEquiv (s1 s2 : DecSt) : Prop :=
  s1.out = s2.out ∧ s1.ctl = s2.ctl ∧ (s1.ctl = .go → s1.buf = s2.buf)

/-- Upstream OpenAI-dialect chunk record carrying the text `A`. -/
def oaChunkLineA : List Char :=
  "data: \x7b\"choices\":[\x7b\"delta\":\x7b\"content\":\"A\"\x7d\x7d]\x7d".data

/-- Upstream OpenAI-dialect chunk record carrying the text `B`. -/
def oaChunkLineB : List Char :=
  "data: \x7b\"choices\":[\x7b\"delta\":\x7b\"content\":\"B\"\x7d\x7d]\x7d".data

/-- Outbound-protocol chunk record carrying the text `A`. -/
def clChunkLineA : List Char := "data: \x7b\"type\":\"chunk\",\"content\":\"A\"\x7d".data

/-- Outbound-protocol chunk record carrying the text `B`. -/
def clChunkLineB : List Char := "data: \x7b\"type\":\"chunk\",\"content\":\"B\"\x7d".data

/-- The `[DONE]` sentinel record. -/
def doneLine : List Char := "data: [DONE]".data

/-- Upstream bytes: chunk `A`, then a garbage `data:` record with payload `g`,
then chunk `B`, then the sentinel, newline-framed, delivered in one read. -/
def c7WireBytes (g : List Char) : List Char :=
  oaChunkLineA ++ ('\n' :: (("data: ".data ++ g) ++
    ('\n' :: (oaChunkLineB ++ ('\n' :: (doneLine ++ ['\n']))))))

/-- The same sequence in the outbound protocol with blank-line record framing. -/
def c7ClientBytes (g : List Char) : List Char :=
  clChunkLineA ++ ('\n' :: ('\n' :: (("data: ".data ++ g) ++
    ('\n' :: ('\n' :: (clChunkLineB ++ ('\n' :: ('\n' :: (doneLine ++ ['\n', '\n'])))))))))

/-- Environment used by the concrete orchestrator traces: every provider's
stream yields one chunk `x` and ends normally. -/
def envX : Provider → StreamEnv := fun _ => (["x"], none)

/-- Environment where claude's first attempt yields `Old1` then `Old2`. -/
def envOld : Provider → StreamEnv := fun p =>
  match p with
  | .claude => (["Old1", "Old2"], none)
  | _ => ([], none)

/- ═══════════════ Shape lemmas for the decode loops ═══════════════ -/

/-- The four possible results of one loop-body line: nothing, one chunk, the done
sentinel with a return, or a thrown error. -/
def LineShape (r : List OutRec × Ctl) : Prop :=
  r = ([], .go) ∨ (∃ s, r = ([.chunk s], .go)) ∨ r = ([.done], .stop) ∨ ∃ m, r = ([], .raise m)

/-- A record list consisting of chunks only. -/
def ChunksOnly (out : List OutRec) : Prop :=
  ∃ cs, out = List.map OutRec.chunk cs

/-- Invariant tying the emitted records to the control state: chunks only while
running or after a throw, chunks followed by one `done` after a sentinel return. -/
def StShape (out : List OutRec) : Ctl → Prop
  | .go => ChunksOnly out
  | .raise _ => ChunksOnly out
  | .stop => ∃ cs, out = List.map OutRec.chunk cs ++ [.done]

theorem streamOpenAILine_shape (l : List Char) : LineShape (streamOpenAILine l) := by
  unfold streamOpenAILine LineShape
  repeat' split
  all_goals simp

theorem streamAnthropicLine_shape (l : List Char) : LineShape (streamAnthropicLine l) := by
  unfold streamAnthropicLine LineShape
  repeat' split
  all_goals simp

theorem streamGeminiLine_shape (l : List Char) : LineShape (streamGeminiLine l) := by
  unfold streamGeminiLine LineShape
  repeat' split
  all_goals simp

theorem adapterHandler_shape (p : Provider) (l : List Char) :
    LineShape (adapterHandler p l) := by
  cases p
  · exact streamOpenAILine_shape l
  · exact streamGeminiLine_shape l
  · exact streamOpenAILine_shape l
  · exact streamAnthropicLine_shape l

theorem procLines_halt (h : List Char → List OutRec × Ctl) (c : Ctl) (hc : c ≠ .go)
    (ls : List (List Char)) : procLines h c ls = ([], c) := by
  cases ls with
  | nil => rfl
  | cons l ls =>
    cases c with
    | go => exact absurd rfl hc
    | stop => rfl
    | raise m => rfl

theorem procLines_cons (h : List Char → List OutRec × Ctl) (l : List Char)
    (ls : List (List Char)) :
    procLines h .go (l :: ls) =
      ((h l).1 ++ (procLines h (h l).2 ls).1, (procLines h (h l).2 ls).2) := rfl

theorem stshape_cons_chunk {out : List OutRec} {c : Ctl} (s : List Char)
    (hs : StShape out c) : StShape (OutRec.chunk s :: out) c := by
  cases c with
  | go => obtain ⟨cs, rfl⟩ := hs; exact ⟨s :: cs, rfl⟩
  | stop => obtain ⟨cs, hh⟩ := hs; exact ⟨s :: cs, by simp [hh]⟩
  | raise m => obtain ⟨cs, rfl⟩ := hs; exact ⟨s :: cs, rfl⟩

theorem stshape_append {a b : List OutRec} {c : Ctl} (ha : ChunksOnly a)
    (hb : StShape b c) : StShape (a ++ b) c := by
  obtain ⟨cs1, rfl⟩ := ha
  cases c with
  | go => obtain ⟨cs2, rfl⟩ := hb; exact ⟨cs1 ++ cs2, by simp⟩
  | stop => obtain ⟨cs2, h2⟩ := hb; exact ⟨cs1 ++ cs2, by simp [h2]⟩
  | raise m => obtain ⟨cs2, rfl⟩ := hb; exact ⟨cs1 ++ cs2, by simp⟩

theorem procLines_shape (h : List Char → List OutRec × Ctl)
    (hs : ∀ l, LineShape (h l)) (ls : List (List Char)) :
    StShape (procLines h .go ls).1 (procLines h .go ls).2 := by
  induction ls with
  | nil => exact ⟨[], rfl⟩
  | cons l ls ih =>
    rw [procLines_cons]
    rcases hs l with h0 | ⟨s, h1⟩ | h2 | ⟨m, h3⟩
    · rw [h0]
      simpa using ih
    · rw [h1]
      exact stshape_cons_chunk s ih
    · rw [h2, procLines_halt h .stop (by simp)]
      exact ⟨[], rfl⟩
    · rw [h3, procLines_halt h (.raise m) (by simp)]
      exact ⟨[], rfl⟩

theorem processRead_go (h : List Char → List OutRec × Ctl) (st : DecSt) (s : List Char)
    (hgo : st.ctl = .go) :
    processRead h st s =
      ⟨st.out ++ (procLines h .go (splitNl (st.buf ++ s)).dropLast).1,
       popLast (splitNl (st.buf ++ s)),
       (procLines h .go (splitNl (st.buf ++ s)).dropLast).2⟩ := by
  unfold processRead
  rw [hgo]

theorem processRead_halt (h : List Char → List OutRec × Ctl) (st : DecSt) (s : List Char)
    (hh : st.ctl ≠ .go) : processRead h st s = st := by
  unfold processRead
  rcases hc : st.ctl with _ | _ | m
  · exact absurd hc hh
  · rfl
  · rfl

theorem processRead_shape (h : List Char → List OutRec × Ctl)
    (hs : ∀ l, LineShape (h l)) (st : DecSt) (hst : StShape st.out st.ctl)
    (s : List Char) :
    StShape (processRead h st s).out (processRead h st s).ctl := by
  rcases hc : st.ctl with _ | _ | m
  · rw [processRead_go h st s hc]
    rw [hc] at hst
    exact stshape_append hst (procLines_shape h hs _)
  · rw [processRead_halt h st s (by rw [hc]; simp)]
    exact hst
  · rw [processRead_halt h st s (by rw [hc]; simp)]
    exact hst

theorem runReads_shape (h : List Char → List OutRec × Ctl)
    (hs : ∀ l, LineShape (h l)) (st : DecSt) (hst : StShape st.out st.ctl) :
    ∀ reads, StShape (runReads h st reads).out (runReads h st reads).ctl := by
  intro reads
  induction reads generalizing st with
  | nil => exact hst
  | cons r rs ih => exact ih _ (processRead_shape h hs st hst r)

theorem runAdapter_true (p : Provider) (status : Nat) (body : List Char)
    (reads : List (List Char)) :
    runAdapter p true status body reads =
      (match (streamRun (adapterHandler p) reads).ctl with
       | .go => ((streamRun (adapterHandler p) reads).out ++ [.done], none)
       | .stop => ((streamRun (adapterHandler p) reads).out, none)
       | .raise m => ((streamRun (adapterHandler p) reads).out, some m)) := rfl

/-- C1: for every provider, every upstream response and every segmentation of the
upstream bytes into reads — including the exception paths caught by `makeStream` —
the proxy's outbound record sequence is zero or more chunk records followed by
exactly one terminal record (the `[DONE]` literal or one error record), with no
chunk after the terminal. -/
theorem proxy_records_chunks_then_one_terminal (p : Provider) (ok : Bool) (status : Nat)
    (body : List Char) (reads : List (List Char)) :
    ∃ cs t, proxyRecords p ok status body reads = List.map OutRec.chunk cs ++ [t] ∧
      (t = OutRec.done ∨ ∃ m, t = OutRec.errRec m) := by
  cases ok with
  | false =>
    exact ⟨[], .errRec (upstreamErrMsg p status body), rfl, Or.inr ⟨_, rfl⟩⟩
  | true =>
    have hsh0 := runReads_shape (adapterHandler p) (adapterHandler_shape p) initSt
      ⟨[], rfl⟩ reads
    show ∃ cs t, makeStream (runAdapter p true status body reads) = _ ∧ _
    rw [runAdapter_true]
    simp only [streamRun]
    rcases hctl : (runReads (adapterHandler p) initSt reads).ctl with _ | _ | m
    · rw [hctl] at hsh0
      obtain ⟨cs, hcs⟩ := hsh0
      refine ⟨cs, .done, ?_, Or.inl rfl⟩
      show (runReads (adapterHandler p) initSt reads).out ++ [OutRec.done] = _
      rw [hcs]
    · rw [hctl] at hsh0
      obtain ⟨cs, hcs⟩ := hsh0
      refine ⟨cs, .done, ?_, Or.inl rfl⟩
      show (runReads (adapterHandler p) initSt reads).out = _
      rw [hcs]
    · rw [hctl] at hsh0
      obtain ⟨cs, hcs⟩ := hsh0
      refine ⟨cs, .errRec m, ?_, Or.inr ⟨m, rfl⟩⟩
      show (runReads (adapterHandler p) initSt reads).out ++ [OutRec.errRec m] = _
      rw [hcs]

/- ═══════════════ Reassembly: split-invariance of the decode loops ═══════════════ -/


theorem splitNl_ne_nil (l : List Char) : splitNl l ≠ [] := by
  cases l with
  | nil => simp [splitNl]
  | cons c cs =>
    unfold splitNl
    split
    · simp
    · split <;> simp

theorem splitNl_cons_nl (cs : List Char) : splitNl ('\n' :: cs) = [] :: splitNl cs := by
  simp [splitNl]

theorem splitNl_cons_other (c : Char) (cs : List Char) (h : List Char)
    (t : List (List Char)) (hc : c ≠ '\n') (hcs : splitNl cs = h :: t) :
    splitNl (c :: cs) = (c :: h) :: t := by
  simp [splitNl, hc, hcs]

theorem popLast_cons_cons (a b : List Char) (t : List (List Char)) :
    popLast (a :: b :: t) = popLast (b :: t) := rfl

theorem popLast_append (A B : List (List Char)) (hB : B ≠ []) :
    popLast (A ++ B) = popLast B := by
  induction A with
  | nil => rfl
  | cons a A ih =>
    cases hA : A ++ B with
    | nil => exact absurd (List.append_eq_nil.mp hA).2 hB
    | cons x xs =>
      rw [List.cons_append, hA, popLast_cons_cons, ← hA, ih]

theorem splitNl_append (x y : List Char) :
    splitNl (x ++ y) = (splitNl x).dropLast ++ consHead (popLast (splitNl x)) (splitNl y) := by
  induction x with
  | nil =>
    rw [List.nil_append]
    cases hy : splitNl y with
    | nil => exact absurd hy (splitNl_ne_nil y)
    | cons h t => simp [splitNl, consHead, popLast]
  | cons c cs ih =>
    by_cases hc : c = '\n'
    · subst hc
      rw [List.cons_append, splitNl_cons_nl, splitNl_cons_nl, ih]
      cases hcs : splitNl cs with
      | nil => exact absurd hcs (splitNl_ne_nil cs)
      | cons h t =>
        rw [List.dropLast_cons₂, popLast_cons_cons, List.cons_append]
    · cases hcsy : splitNl (cs ++ y) with
      | nil => exact absurd hcsy (splitNl_ne_nil _)
      | cons H T =>
        rw [List.cons_append, splitNl_cons_other c (cs ++ y) H T hc hcsy]
        cases hcs : splitNl cs with
        | nil => exact absurd hcs (splitNl_ne_nil cs)
        | cons h t =>
          rw [splitNl_cons_other c cs h t hc hcs]
          rw [ih, hcs] at hcsy
          cases t with
          | nil =>
            cases hy : splitNl y with
            | nil => exact absurd hy (splitNl_ne_nil y)
            | cons hy0 ty =>
              rw [hy] at hcsy
              simp only [List.dropLast_single, popLast, consHead, List.nil_append] at hcsy ⊢
              injection hcsy with h1 h2
              rw [← h1, ← h2, List.cons_append]
          | cons t1 t2 =>
            rw [List.dropLast_cons₂, popLast_cons_cons, List.cons_append] at hcsy
            injection hcsy with h1 h2
            rw [List.dropLast_cons₂, popLast_cons_cons, List.cons_append, ← h1, ← h2]

theorem splitNl_no_nl (l : List Char) (hl : '\n' ∉ l) : splitNl l = [l] := by
  induction l with
  | nil => rfl
  | cons c cs ih =>
    have hc : c ≠ '\n' := fun h => hl (by rw [h]; exact List.mem_cons_self _ _)
    have hcs : '\n' ∉ cs := fun h => hl (List.mem_cons_of_mem c h)
    exact splitNl_cons_other c cs cs [] hc (ih hcs)

theorem popLast_splitNl_no_nl (l : List Char) : '\n' ∉ popLast (splitNl l) := by
  induction l with
  | nil => simp [splitNl, popLast]
  | cons c cs ih =>
    by_cases hc : c = '\n'
    · subst hc
      rw [splitNl_cons_nl]
      cases hcs : splitNl cs with
      | nil => exact absurd hcs (splitNl_ne_nil cs)
      | cons h t =>
        rw [popLast_cons_cons]
        rw [hcs] at ih
        exact ih
    · cases hcs : splitNl cs with
      | nil => exact absurd hcs (splitNl_ne_nil cs)
      | cons h t =>
        rw [splitNl_cons_other c cs h t hc hcs]
        cases t with
        | nil =>
          rw [hcs] at ih
          simp only [popLast] at ih ⊢
          intro hmem
          rcases List.mem_cons.mp hmem with h1 | h1
          · exact hc h1.symm
          · exact ih h1
        | cons t1 t2 =>
          rw [popLast_cons_cons]
          rw [hcs, popLast_cons_cons] at ih
          exact ih

theorem splitNl_no_nl_append (x y : List Char) (hx : '\n' ∉ x) :
    splitNl (x ++ y) = consHead x (splitNl y) := by
  rw [splitNl_append, splitNl_no_nl x hx]
  simp [popLast]

theorem procLines_append (h : List Char → List OutRec × Ctl) (c : Ctl)
    (xs ys : List (List Char)) :
    procLines h c (xs ++ ys) =
      ((procLines h c xs).1 ++ (procLines h (procLines h c xs).2 ys).1,
       (procLines h (procLines h c xs).2 ys).2) := by
  induction xs generalizing c with
  | nil => rfl
  | cons x xs ih =>
    cases c with
    | go =>
      rw [List.cons_append, procLines_cons, procLines_cons, ih]
      simp [List.append_assoc]
    | stop =>
      rw [List.cons_append,
        procLines_halt h .stop (by simp) (x :: (xs ++ ys)),
        procLines_halt h .stop (by simp) (x :: xs),
        procLines_halt h .stop (by simp) ys]
      rfl
    | raise m =>
      rw [List.cons_append,
        procLines_halt h (.raise m) (by simp) (x :: (xs ++ ys)),
        procLines_halt h (.raise m) (by simp) (x :: xs),
        procLines_halt h (.raise m) (by simp) ys]
      rfl


theorem decEquiv_refl (s : DecSt) : DecEquiv s s := ⟨rfl, rfl, fun _ => rfl⟩

theorem decEquiv_trans {s1 s2 s3 : DecSt} (h12 : DecEquiv s1 s2) (h23 : DecEquiv s2 s3) :
    DecEquiv s1 s3 :=
  ⟨h12.1.trans h23.1, h12.2.1.trans h23.2.1,
   fun hg => (h12.2.2 hg).trans (h23.2.2 (h12.2.1 ▸ hg))⟩

theorem processRead_buf_no_nl (h : List Char → List OutRec × Ctl) (st : DecSt)
    (s : List Char) (hb : '\n' ∉ st.buf) : '\n' ∉ (processRead h st s).buf := by
  rcases hc : st.ctl with _ | _ | m
  · rw [processRead_go h st s hc]
    exact popLast_splitNl_no_nl _
  · rw [processRead_halt h st s (by rw [hc]; simp)]; exact hb
  · rw [processRead_halt h st s (by rw [hc]; simp)]; exact hb

theorem processRead_congr (h : List Char → List OutRec × Ctl) {s1 s2 : DecSt}
    (he : DecEquiv s1 s2) (r : List Char) :
    DecEquiv (processRead h s1 r) (processRead h s2 r) := by
  obtain ⟨ho, hc, hb⟩ := he
  rcases hctl : s1.ctl with _ | _ | m
  · rw [processRead_go h s1 r hctl, processRead_go h s2 r (hc.symm.trans hctl)]
    rw [ho, hb hctl]
    exact decEquiv_refl _
  · rw [processRead_halt h s1 r (by rw [hctl]; simp),
      processRead_halt h s2 r (by rw [← hc, hctl]; simp)]
    exact ⟨ho, hc, hb⟩
  · rw [processRead_halt h s1 r (by rw [hctl]; simp),
      processRead_halt h s2 r (by rw [← hc, hctl]; simp)]
    exact ⟨ho, hc, hb⟩

theorem processRead_append_equiv (h : List Char → List OutRec × Ctl) (st : DecSt)
    (a b : List Char) (hbuf : '\n' ∉ st.buf) :
    DecEquiv (processRead h (processRead h st a) b) (processRead h st (a ++ b)) := by
  rcases hctl : st.ctl with _ | _ | m
  case go =>
    have hP : '\n' ∉ popLast (splitNl (st.buf ++ a)) := popLast_splitNl_no_nl _
    cases hsb : splitNl b with
    | nil => exact absurd hsb (splitNl_ne_nil b)
    | cons hb0 tb =>
      have hQ : splitNl (popLast (splitNl (st.buf ++ a)) ++ b)
          = (popLast (splitNl (st.buf ++ a)) ++ hb0) :: tb := by
        rw [splitNl_no_nl_append _ b hP, hsb]
        rfl
      have hR : splitNl (st.buf ++ (a ++ b))
          = (splitNl (st.buf ++ a)).dropLast ++
            ((popLast (splitNl (st.buf ++ a)) ++ hb0) :: tb) := by
        rw [← List.append_assoc, splitNl_append (st.buf ++ a) b, hsb]
        rfl
      rw [processRead_go h st a hctl, processRead_go h st (a ++ b) hctl]
      rw [hR, List.dropLast_append_cons, popLast_append _ _ (by simp),
        procLines_append h .go]
      rcases hC1 : (procLines h .go (splitNl (st.buf ++ a)).dropLast).2 with _ | _ | m
      · rw [processRead_go h ⟨st.out ++ (procLines h .go (splitNl (st.buf ++ a)).dropLast).1,
            popLast (splitNl (st.buf ++ a)), .go⟩ b rfl]
        simp only [hQ]
        exact ⟨by simp [List.append_assoc], rfl, fun _ => rfl⟩
      · rw [processRead_halt h ⟨st.out ++ (procLines h .go (splitNl (st.buf ++ a)).dropLast).1,
            popLast (splitNl (st.buf ++ a)), .stop⟩ b (by simp)]
        rw [procLines_halt h .stop (by simp)]
        exact ⟨by simp, rfl, fun hgo => nomatch hgo⟩
      · rw [processRead_halt h ⟨st.out ++ (procLines h .go (splitNl (st.buf ++ a)).dropLast).1,
            popLast (splitNl (st.buf ++ a)), .raise m⟩ b (by simp)]
        rw [procLines_halt h (.raise m) (by simp)]
        exact ⟨by simp, rfl, fun hgo => nomatch hgo⟩
  case stop =>
    rw [processRead_halt h st a (by rw [hctl]; simp),
      processRead_halt h st b (by rw [hctl]; simp),
      processRead_halt h st (a ++ b) (by rw [hctl]; simp)]
    exact decEquiv_refl st
  case raise =>
    rw [processRead_halt h st a (by rw [hctl]; simp),
      processRead_halt h st b (by rw [hctl]; simp),
      processRead_halt h st (a ++ b) (by rw [hctl]; simp)]
    exact decEquiv_refl st

theorem runReads_join_equiv (h : List Char → List OutRec × Ctl)
    (reads : List (List Char)) (st : DecSt) (hb : '\n' ∉ st.buf) :
    DecEquiv (runReads h st reads) (processRead h st reads.flatten) := by
  induction reads generalizing st with
  | nil =>
    rcases hctl : st.ctl with _ | _ | m
    · show DecEquiv st (processRead h st [])
      rw [processRead_go h st [] hctl, List.append_nil, splitNl_no_nl st.buf hb]
      refine ⟨?_, ?_, fun _ => ?_⟩ <;>
        simp [List.dropLast_single, procLines, popLast, hctl]
    · rw [show (List.flatten ([] : List (List Char))) = [] from rfl,
        processRead_halt h st [] (by rw [hctl]; simp)]
      exact decEquiv_refl st
    · rw [show (List.flatten ([] : List (List Char))) = [] from rfl,
        processRead_halt h st [] (by rw [hctl]; simp)]
      exact decEquiv_refl st
  | cons r rs ih =>
    exact decEquiv_trans (ih (processRead h st r) (processRead_buf_no_nl h st r hb))
      (processRead_append_equiv h st r rs.flatten hb)

theorem streamRun_join (h : List Char → List OutRec × Ctl) (reads : List (List Char)) :
    (streamRun h reads).out = (streamRun h [reads.flatten]).out ∧
    (streamRun h reads).ctl = (streamRun h [reads.flatten]).ctl := by
  have he := runReads_join_equiv h reads initSt (by simp [initSt])
  exact ⟨he.1, he.2.1⟩

/-- C2: feeding a decode loop any segmentation of an upstream byte sequence into
reads — including a split at an arbitrary position inside a `data:` record —
produces exactly the same decoded output and final control state as the same
bytes delivered in one piece: the partial trailing fragment is carried over,
never dropped and never emitted twice. This holds for every Wire Adapter's loop
and for the transport client's loop; concretely, `realStream` fed
`data: {"typ` and then `e":"chunk","content":"hi"}` plus the record
terminator yields exactly one chunk `"hi"` (the record format of the claim's
example belongs to the outbound protocol, decoded by `realStream`). -/
theorem decode_reassembly_split_invariant :
    (∀ (p : Provider) (reads : List (List Char)),
      (streamRun (adapterHandler p) reads).out = (streamRun (adapterHandler p) [reads.flatten]).out ∧
      (streamRun (adapterHandler p) reads).ctl = (streamRun (adapterHandler p) [reads.flatten]).ctl)
    ∧ (∀ reads : List (List Char),
      (realStreamRun reads).out = (realStreamRun [reads.flatten]).out ∧
      (realStreamRun reads).ctl = (realStreamRun [reads.flatten]).ctl)
    ∧ clientYields (realStreamRun
        ["data: \x7b\"typ".data, "e\":\"chunk\",\"content\":\"hi\"\x7d\n\n".data])
      = ["hi".data] := by
  refine ⟨fun p reads => streamRun_join (adapterHandler p) reads,
    fun reads => streamRun_join realStreamLine reads, ?_⟩
  rfl

/- ═══════════════ Cancellation behaviour of the two transport generators ═══════════════ -/

theorem processRead_out_mono (h : List Char → List OutRec × Ctl) (st : DecSt)
    (s : List Char) : ∃ d, (processRead h st s).out = st.out ++ d := by
  rcases hctl : st.ctl with _ | _ | m
  · rw [processRead_go h st s hctl]
    exact ⟨_, rfl⟩
  · rw [processRead_halt h st s (by rw [hctl]; simp)]
    exact ⟨[], (List.append_nil _).symm⟩
  · rw [processRead_halt h st s (by rw [hctl]; simp)]
    exact ⟨[], (List.append_nil _).symm⟩

theorem runReads_out_mono (h : List Char → List OutRec × Ctl) (rs : List (List Char))
    (st : DecSt) : ∃ d, (runReads h st rs).out = st.out ++ d := by
  induction rs generalizing st with
  | nil => exact ⟨[], (List.append_nil _).symm⟩
  | cons r rs ih =>
    obtain ⟨d1, hd1⟩ := processRead_out_mono h st r
    obtain ⟨d2, hd2⟩ := ih (processRead h st r)
    exact ⟨d1 ++ d2, by rw [show runReads h st (r :: rs) = runReads h (processRead h st r) rs
      from rfl, hd2, hd1, List.append_assoc]⟩

theorem runReads_take_out (h : List Char → List OutRec × Ctl) (rs : List (List Char))
    (st : DecSt) (k : Nat) :
    ∃ d, (runReads h st rs).out = (runReads h st (rs.take k)).out ++ d := by
  induction rs generalizing st k with
  | nil => exact ⟨[], by simp⟩
  | cons r rs ih =>
    cases k with
    | zero =>
      obtain ⟨d, hd⟩ := runReads_out_mono h (r :: rs) st
      exact ⟨d, hd⟩
    | succ k => exact ih (processRead h st r) k

/-- C6 (amended): cancellation is honored by the transport client in real mode
only. In real mode the abort signal is wired into `fetch`/`reader.read()`, so a
signal raised at suspension point `k` means exactly the first `k` reads are
decoded — the produced chunks are a prefix of the uncancelled stream's chunks and
nothing is produced past the abort. In mock/demo mode the generator never
consults the signal: the chunks it produces are identical for every abort point. -/
theorem transport_cancellation_behaviour :
    (∀ (reads : List (List Char)) (k : Nat),
      ∃ rest, realStreamProduced reads none = realStreamProduced reads (some k) ++ rest)
    ∧ (∀ (p : Provider) (r k k' : Nat),
      mockStreamProduced p r k = mockStreamProduced p r k') := by
  constructor
  · intro reads k
    obtain ⟨d, hd⟩ := runReads_take_out realStreamLine reads initSt k
    refine ⟨d.filterMap (fun rec => match rec with
      | .chunk s => some s
      | _ => none), ?_⟩
    show (runReads realStreamLine initSt reads).out.filterMap _ = _
    rw [hd, List.filterMap_append]
    rfl
  · intro p r k k'
    rfl

set_option maxRecDepth 8000 in
/-- C6 counterexample: the claim requires that once the cancellation signal is
raised no further chunk is produced, in mock mode as well. But with the signal
raised at suspension point 0 — before the initial thinking pause, so the claim
demands an empty chunk sequence — the claude mock generator still produces its
entire token sequence, starting with the token "Thank". -/
theorem mockStream_ignores_cancel_cx :
    (mockStreamProduced .claude 0 0).head? = some "Thank".data ∧
    mockStreamProduced .claude 0 0 = mockStream .claude 0 :=
  ⟨rfl, rfl⟩

/- ═══════════════ The split-keep-whitespace join identity ═══════════════ -/

theorem splitWsKeepF_join :
    ∀ (fuel : Nat) (l : List Char), l.length < fuel →
      (splitWsKeepF fuel l).flatten = l := by
  intro fuel
  induction fuel with
  | zero => intro l hl; omega
  | succ fuel ih =>
    intro l hl
    cases hrest : l.dropWhile (fun c => ¬ isJsWs c) with
    | nil =>
      simp only [splitWsKeepF, hrest, List.flatten_cons, List.flatten_nil]
      conv_rhs => rw [← List.takeWhile_append_dropWhile (p := fun c => ¬ isJsWs c) (l := l)]
      rw [hrest]
    | cons w t =>
      have h1 : (l.dropWhile (fun c => ¬ isJsWs c)).length ≤ l.length :=
        (List.dropWhile_suffix _).length_le
      rw [hrest] at h1
      simp only [List.length_cons] at h1
      have h2 : (t.dropWhile isJsWs).length ≤ t.length :=
        (List.dropWhile_suffix _).length_le
      simp only [splitWsKeepF, hrest, List.flatten_cons]
      rw [ih (t.dropWhile isJsWs) (by omega)]
      conv_rhs => rw [← List.takeWhile_append_dropWhile (p := fun c => ¬ isJsWs c) (l := l)]
      rw [hrest]
      simp [List.takeWhile_append_dropWhile]

theorem splitWsKeep_join (l : List Char) : (splitWsKeep l).flatten = l :=
  splitWsKeepF_join _ l (by omega)

/- ═══════════════ Malformed records are skipped at both layers ═══════════════ -/


theorem splitNl_line (a r : List Char) (ha : '\n' ∉ a) :
    splitNl (a ++ '\n' :: r) = a :: splitNl r := by
  rw [splitNl_no_nl_append a ('\n' :: r) ha, splitNl_cons_nl]
  simp [consHead]

theorem oaLine_garbage (g : List Char) (hdone : trimJs g ≠ "[DONE]".data)
    (hparse : jsonParse (trimJs g) = none) :
    streamOpenAILine ("data: ".data ++ g) = ([], .go) := by
  unfold streamOpenAILine
  have h1 : startsWithCh "data: ".data ("data: ".data ++ g) = true := rfl
  have h2 : ("data: ".data ++ g).drop 6 = g := rfl
  rw [if_neg (not_not_intro h1), h2, if_neg hdone, hparse]

theorem clLine_garbage (g : List Char) (hdone : trimJs g ≠ "[DONE]".data)
    (hparse : jsonParse (trimJs g) = none) :
    realStreamLine ("data: ".data ++ g) = ([], .go) := by
  unfold realStreamLine
  have h1 : startsWithCh "data: ".data ("data: ".data ++ g) = true := rfl
  have h2 : ("data: ".data ++ g).drop 6 = g := rfl
  rw [if_neg (not_not_intro h1), h2, if_neg hdone, hparse]

theorem no_nl_data_garbage (g : List Char) (hnl : '\n' ∉ g) :
    '\n' ∉ "data: ".data ++ g := by
  intro h
  rcases List.mem_append.mp h with h1 | h1
  · exact absurd h1 (by decide)
  · exact hnl h1

theorem c7_wire_split (g : List Char) (hnl : '\n' ∉ g) :
    splitNl (c7WireBytes g) =
      [oaChunkLineA, "data: ".data ++ g, oaChunkLineB, doneLine, []] := by
  unfold c7WireBytes
  rw [splitNl_line _ _ (by decide), splitNl_line _ _ (no_nl_data_garbage g hnl),
    splitNl_line _ _ (by decide), splitNl_line _ _ (by decide)]
  rfl

theorem c7_client_split (g : List Char) (hnl : '\n' ∉ g) :
    splitNl (c7ClientBytes g) =
      [clChunkLineA, [], "data: ".data ++ g, [], clChunkLineB, [], doneLine, [], []] := by
  unfold c7ClientBytes
  rw [splitNl_line _ _ (by decide), splitNl_cons_nl,
    splitNl_line _ _ (no_nl_data_garbage g hnl), splitNl_cons_nl,
    splitNl_line _ _ (by decide), splitNl_cons_nl, splitNl_line _ _ (by decide),
    splitNl_cons_nl]
  rfl

theorem processRead_init (h : List Char → List OutRec × Ctl) (bytes : List Char) :
    processRead h initSt bytes =
      ⟨(procLines h .go (splitNl bytes).dropLast).1, popLast (splitNl bytes),
       (procLines h .go (splitNl bytes).dropLast).2⟩ := by
  rw [processRead_go h initSt bytes rfl]
  rfl

set_option maxRecDepth 4000 in
/-- C7: a malformed (non-JSON) `data:` record between two valid chunk records is
skipped silently at both decoding layers. At the Wire Adapter (upstream OpenAI
dialect, decoded by `streamOpenAI`) the proxy still emits exactly
`Chunk("A"), Chunk("B"), Done` with no error record; at the Transport Client
(outbound protocol, decoded by `realStream`) the yielded sequence is exactly
`"A", "B"` followed by the normal `[DONE]` return, with no thrown error. -/
theorem malformed_record_skipped_both_layers (g : List Char)
    (hnl : '\n' ∉ g) (hdone : trimJs g ≠ "[DONE]".data)
    (hparse : jsonParse (trimJs g) = none) :
    proxyRecords .chatgpt true 200 [] [c7WireBytes g]
        = [.chunk "A".data, .chunk "B".data, .done]
    ∧ clientYields (realStreamRun [c7ClientBytes g]) = ["A".data, "B".data]
    ∧ (realStreamRun [c7ClientBytes g]).ctl = .stop := by
  have e1 : streamOpenAILine oaChunkLineA = ([.chunk "A".data], .go) := by rfl
  have e3 : streamOpenAILine oaChunkLineB = ([.chunk "B".data], .go) := by rfl
  have e4 : streamOpenAILine doneLine = ([.done], .stop) := by rfl
  have hrun : streamRun (adapterHandler .chatgpt) [c7WireBytes g]
      = ⟨[.chunk "A".data, .chunk "B".data, .done], [], .stop⟩ := by
    show processRead streamOpenAILine initSt (c7WireBytes g) = _
    rw [processRead_init, c7_wire_split g hnl]
    show (⟨(procLines streamOpenAILine .go
        [oaChunkLineA, "data: ".data ++ g, oaChunkLineB, doneLine]).1, [],
        (procLines streamOpenAILine .go
        [oaChunkLineA, "data: ".data ++ g, oaChunkLineB, doneLine]).2⟩ : DecSt) = _
    rw [procLines_cons, e1, procLines_cons, oaLine_garbage g hdone hparse,
      procLines_cons, e3, procLines_cons, e4]
    rfl
  have ecA : realStreamLine clChunkLineA = ([.chunk "A".data], .go) := by rfl
  have ecB : realStreamLine clChunkLineB = ([.chunk "B".data], .go) := by rfl
  have ecD : realStreamLine doneLine = ([], .stop) := by rfl
  have ecE : realStreamLine [] = ([], .go) := by rfl
  have hrunC : realStreamRun [c7ClientBytes g]
      = ⟨[.chunk "A".data, .chunk "B".data], [], .stop⟩ := by
    show processRead realStreamLine initSt (c7ClientBytes g) = _
    rw [processRead_init, c7_client_split g hnl]
    show (⟨(procLines realStreamLine .go
        [clChunkLineA, [], "data: ".data ++ g, [], clChunkLineB, [], doneLine, []]).1, [],
        (procLines realStreamLine .go
        [clChunkLineA, [], "data: ".data ++ g, [], clChunkLineB, [], doneLine, []]).2⟩
        : DecSt) = _
    rw [procLines_cons, ecA, procLines_cons, ecE, procLines_cons,
      clLine_garbage g hdone hparse, procLines_cons, ecE, procLines_cons, ecB,
      procLines_cons, ecE, procLines_cons, ecD]
    rfl
  refine ⟨?_, ?_, ?_⟩
  · show makeStream (runAdapter .chatgpt true 200 [] [c7WireBytes g]) = _
    rw [runAdapter_true, hrun]
    rfl
  · rw [hrunC]
    rfl
  · rw [hrunC]

set_option maxRecDepth 4000 in
/-- C7 witness: the general theorem applied at the concrete garbage payload
`not-json` of the spec's example. -/
theorem malformed_record_skipped_both_layers_witness :
    proxyRecords .chatgpt true 200 [] [c7WireBytes "not-json".data]
        = [.chunk "A".data, .chunk "B".data, .done]
    ∧ clientYields (realStreamRun [c7ClientBytes "not-json".data])
        = ["A".data, "B".data]
    ∧ (realStreamRun [c7ClientBytes "not-json".data]).ctl = .stop :=
  malformed_record_skipped_both_layers "not-json".data (by decide) (by decide) (by rfl)

/- ═══════════════ Orchestrator lemmas ═══════════════ -/

theorem stepTask_some (s : OrchState) (i : Nat) (t : RunTask)
    (ht : s.tasks[i]? = some t) : stepTask s i = stepTaskAux s i t := by
  unfold stepTask
  rw [ht]

theorem settleTask_states (s : OrchState) (t : RunTask) :
    (settleTask s t).states = s.states := by
  unfold settleTask
  repeat' split
  all_goals rfl

theorem ProviderStates.get_set_ne (m : ProviderStates) (p : Provider)
    (v : AIProviderState) (q : Provider) (hq : q ≠ p) :
    (m.set p v).get q = m.get q := by
  cases p <;> cases q <;> simp_all [ProviderStates.get, ProviderStates.set]

theorem abortCurrent_nextCtrl (s : OrchState) : (abortCurrent s).nextCtrl = s.nextCtrl := by
  unfold abortCurrent
  cases s.currentCtrl <;> rfl

theorem abortCurrent_tasks (s : OrchState) : (abortCurrent s).tasks = s.tasks := by
  unfold abortCurrent
  cases s.currentCtrl <;> rfl

theorem abortCurrent_aborted (s : OrchState) (c : Nat) (hc : s.currentCtrl = some c) :
    (abortCurrent s).abortedCtrls = c :: s.abortedCtrls := by
  unfold abortCurrent
  rw [hc]


/-- C3 (amended): retrying a provider resets that provider's session fields and
starts a new attempt, but it reuses the current cancellation scope without
aborting the superseded attempt and performs no stale-write rejection; a late
write from a superseded attempt is discarded only when that attempt's controller
has been aborted (by a new submission, reset, or unmount) — resuming a loop whose
signal is aborted leaves the provider states completely untouched. -/
theorem stale_writes_dropped_only_when_aborted (s : OrchState) (i : Nat) (t : RunTask)
    (ht : s.tasks[i]? = some t) (habort : t.ctrl ∈ s.abortedCtrls) :
    (stepTask s i).states = s.states := by
  rw [stepTask_some s i t ht]
  unfold stepTaskAux
  rw [if_pos habort, settleTask_states]

/-- C3 witness: resuming, after an unmount abort, the superseded perplexity loop
of a submitted batch changes no provider state. -/
theorem stale_writes_dropped_only_when_aborted_witness :
    (stepTask (unmountCleanup (submitQuestion initOrch "q" envX)) 0).states
      = (unmountCleanup (submitQuestion initOrch "q" envX)).states :=
  stale_writes_dropped_only_when_aborted _ 0 (mkTask .perplexity "q" 0 (envX .perplexity) true)
    (by rfl) (by decide)

/-- C3 counterexample: the claim as stated is false. After `retry('claude')` the
new attempt's text is `New1`, but when the still-running superseded attempt's
second chunk is delivered, its accumulation `Old1Old2` overwrites the session's
text — the in-flight chunk from the superseded attempt is appended to the old
accumulation and written over the new attempt's text, not rejected. -/
theorem retry_stale_write_cx :
    ((stepTask (retryProvider (stepTask (submitQuestion initOrch "q" envOld) 3) .claude
        (["New1"], none)) 4).states.get .claude).content = "New1" ∧
    ((stepTask (stepTask (retryProvider (stepTask (submitQuestion initOrch "q" envOld) 3)
        .claude (["New1"], none)) 4) 3).states.get .claude).content = "Old1Old2" := by
  decide

/-- C4 (amended): `submit(question)` called while a previous submission is still
in flight (the querying flag is set) is refused as a no-op — the in-flight batch
continues untouched. Only when no submission is in flight does a non-blank
submit cancel the previous controller, reset all four sessions to streaming, and
start four new streams under one fresh shared cancellation scope. -/
theorem submit_refused_inflight_else_supersedes :
    (∀ (s : OrchState) (q : String) (env : Provider → StreamEnv),
      s.isQuerying = true → submitQuestion s q env = s)
    ∧ (∀ (s : OrchState) (q : String) (env : Provider → StreamEnv),
      s.isQuerying = false → jsTrim q ≠ "" →
      (submitQuestion s q env).currentQuestion = q ∧
      (submitQuestion s q env).isQuerying = true ∧
      (submitQuestion s q env).states = makeInitialState true ∧
      (submitQuestion s q env).currentCtrl = some s.nextCtrl ∧
      (∀ c, s.currentCtrl = some c → c ∈ (submitQuestion s q env).abortedCtrls) ∧
      (submitQuestion s q env).tasks =
        s.tasks ++ PROVIDERS.map (fun p => mkTask p q s.nextCtrl (env p) true)) := by
  constructor
  · intro s q env hq
    unfold submitQuestion
    rw [if_pos (Or.inr hq)]
  · intro s q env hq hqt
    unfold submitQuestion
    rw [if_neg (by simp [hq, hqt])]
    refine ⟨rfl, rfl, rfl, ?_, ?_, ?_⟩
    · show some (abortCurrent s).nextCtrl = some s.nextCtrl
      rw [abortCurrent_nextCtrl]
    · intro c hc
      show c ∈ (abortCurrent s).abortedCtrls
      rw [abortCurrent_aborted s c hc]
      exact List.mem_cons_self _ _
    · show (abortCurrent s).tasks ++
          PROVIDERS.map (fun p => mkTask p q (abortCurrent s).nextCtrl (env p) true) = _
      rw [abortCurrent_tasks, abortCurrent_nextCtrl]

/-- C4 witness: the amended theorem applied to a fresh submit of `q1` and to a
second submit of `q2` issued while `q1` is still in flight. -/
theorem submit_refused_inflight_else_supersedes_witness :
    submitQuestion (submitQuestion initOrch "q1" envX) "q2" envX
        = submitQuestion initOrch "q1" envX ∧
    (submitQuestion initOrch "q1" envX).currentQuestion = "q1" :=
  ⟨submit_refused_inflight_else_supersedes.1 (submitQuestion initOrch "q1" envX) "q2" envX
      (by decide),
   (submit_refused_inflight_else_supersedes.2 initOrch "q1" envX (by decide) (by decide)).1⟩

/-- C4 counterexample: the claim as stated is false — submitting while a previous
submission is in flight is refused, not superseding: the second submit leaves the
state bit-for-bit unchanged, with the first question still current, the querying
flag still set and the four original loops still in flight. -/
theorem submit_inflight_refused_cx :
    submitQuestion (submitQuestion initOrch "q1" envX) "q2" envX
        = submitQuestion initOrch "q1" envX ∧
    (submitQuestion initOrch "q1" envX).isQuerying = true ∧
    (submitQuestion initOrch "q1" envX).tasks.length = 4 ∧
    (submitQuestion (submitQuestion initOrch "q1" envX) "q2" envX).currentQuestion
        = "q1" := by
  decide

/-- C5 (amended): `retry(provider)` starts one new session for that provider
only, reusing the last submitted question — it leaves the other three providers'
states unchanged, both at the retry itself and under every later resumption of
any loop, which only ever patches its own provider. But the retry runs under the
current batch's cancellation scope rather than a fresh one: it is blocked by a
prior cancellation of the batch (its loop's signal is already aborted, so every
chunk is dropped and the session never completes). -/
theorem retry_isolated_but_reuses_scope :
    (∀ (s : OrchState) (p : Provider) (stream : StreamEnv) (c : Nat),
      s.currentQuestion ≠ "" → s.currentCtrl = some c →
      (∀ q, q ≠ p → (retryProvider s p stream).states.get q = s.states.get q) ∧
      (retryProvider s p stream).tasks =
        s.tasks ++ [mkTask p s.currentQuestion c stream false] ∧
      (retryProvider s p stream).currentQuestion = s.currentQuestion ∧
      (retryProvider s p stream).isQuerying = s.isQuerying ∧
      (retryProvider s p stream).abortedCtrls = s.abortedCtrls ∧
      (retryProvider s p stream).currentCtrl = s.currentCtrl)
    ∧ (∀ (s : OrchState) (i : Nat) (t : RunTask), s.tasks[i]? = some t →
      ∀ q, q ≠ t.provider → (stepTask s i).states.get q = s.states.get q) := by
  constructor
  · intro s p stream c hq hcc
    unfold retryProvider
    rw [if_neg hq, hcc]
    exact ⟨fun q hqp => ProviderStates.get_set_ne _ _ _ _ hqp, rfl, rfl, rfl, rfl, rfl⟩
  · intro s i t ht q hq
    rw [stepTask_some s i t ht]
    unfold stepTaskAux
    by_cases hab : t.ctrl ∈ s.abortedCtrls
    · rw [if_pos hab, settleTask_states]
    · rw [if_neg hab]
      rcases hp : t.pending with _ | ⟨c, rest⟩
      · rcases ho : t.outcome with _ | m
        · dsimp only
          rw [settleTask_states]
          exact ProviderStates.get_set_ne _ _ _ _ hq
        · dsimp only
          rw [settleTask_states]
          exact ProviderStates.get_set_ne _ _ _ _ hq
      · dsimp only
        exact ProviderStates.get_set_ne _ _ _ _ hq

/-- C5 witness: the amended theorem applied to a retry of claude after a
submission — gemini's state is untouched by the retry, and perplexity's state is
untouched by a resumption of the claude loop. -/
theorem retry_isolated_but_reuses_scope_witness :
    (retryProvider (submitQuestion initOrch "q" envX) .claude (["N"], none)).states.get
        .gemini = (submitQuestion initOrch "q" envX).states.get .gemini ∧
    (stepTask (submitQuestion initOrch "q" envX) 3).states.get .perplexity
        = (submitQuestion initOrch "q" envX).states.get .perplexity :=
  ⟨(retry_isolated_but_reuses_scope.1 (submitQuestion initOrch "q" envX) .claude
      (["N"], none) 0 (by decide) (by decide)).1 .gemini (by decide),
   retry_isolated_but_reuses_scope.2 (submitQuestion initOrch "q" envX) 3
      (mkTask .claude "q" 0 (envX .claude) true) (by rfl) .perplexity (by decide)⟩

/-- C5 counterexample: the claim as stated is false — a retry issued after the
shared scope was cancelled (here by the unmount cleanup's abort) does not stream
to completion: the retried loop holds the already-aborted batch signal, so its
first resumption drops the pending chunk and returns; the claude session keeps
the freshly reset fields forever (`content` empty, never complete) and the retry
task is gone. -/
theorem retry_blocked_after_cancel_cx :
    (stepTask (retryProvider (unmountCleanup (submitQuestion initOrch "q" envX)) .claude
        (["N"], none)) 4).states.get .claude = initialEntry true ∧
    (stepTask (retryProvider (unmountCleanup (submitQuestion initOrch "q" envX)) .claude
        (["N"], none)) 4).tasks.length = 4 := by
  decide

/- ═══════════════ Credential resolution (C8) ═══════════════ -/

set_option maxRecDepth 2000 in
/-- C8: when neither a stored credential nor the environment fallback resolves
for `(caller, provider)`, the handler performs no upstream network call and
responds with the single JSON error event naming the unconfigured provider
(parsing back to exactly `\x7b type: error, message \x7d`); resolution always
consults the caller's stored credential before the environment fallback. -/
theorem missing_credential_short_circuits (p : Provider) (question : String)
    (history : List ChatMessage) (userKey : Provider → Option String)
    (envGet : String → Option String)
    (hu : userKey p = none) (he : envGet (envKeyName p) = none) (hq : question ≠ "") :
    streamAiHandler (some p) question history userKey envGet
        = .keyError 400 (errorEventBody (noKeyMsg p))
    ∧ upstreamCalls (streamAiHandler (some p) question history userKey envGet) = 0
    ∧ (∃ pre post, noKeyMsg p = pre ++ providerName p ++ post)
    ∧ jsonParse (errorEventBody (noKeyMsg p)).data
        = some (.obj [("type".data, .str "error".data),
                      ("message".data, .str (noKeyMsg p).data)])
    ∧ (∀ (uk : String) (env2 : String → Option String),
        resolveApiKey (some uk) env2 p = some uk) := by
  have hr : resolveApiKey (userKey p) envGet p = none := by
    unfold resolveApiKey
    rw [hu, he]
  have hh : streamAiHandler (some p) question history userKey envGet
      = .keyError 400 (errorEventBody (noKeyMsg p)) := by
    unfold streamAiHandler
    dsimp only
    rw [if_neg hq, hr]
  refine ⟨hh, by rw [hh]; rfl, ?_, ?_, fun uk env2 => rfl⟩
  · exact ⟨"No API key configured for ", ". Add yours in Settings → API Keys.", rfl⟩
  · cases p <;> rfl

set_option maxRecDepth 2000 in
/-- C8 witness: the theorem instantiated at the gemini provider with no stored
key and no environment secret. -/
theorem missing_credential_short_circuits_witness :
    streamAiHandler (some .gemini) "hi" [] (fun _ => none) (fun _ => none)
        = .keyError 400 (errorEventBody (noKeyMsg .gemini))
    ∧ upstreamCalls (streamAiHandler (some .gemini) "hi" [] (fun _ => none)
        (fun _ => none)) = 0
    ∧ (∃ pre post, noKeyMsg .gemini = pre ++ providerName .gemini ++ post)
    ∧ jsonParse (errorEventBody (noKeyMsg .gemini)).data
        = some (.obj [("type".data, .str "error".data),
                      ("message".data, .str (noKeyMsg .gemini).data)])
    ∧ (∀ (uk : String) (env2 : String → Option String),
        resolveApiKey (some uk) env2 .gemini = some uk) :=
  missing_credential_short_circuits .gemini "hi" [] (fun _ => none) (fun _ => none)
    rfl rfl (by decide)

/- ═══════════════ Focused conversation failure handling (C9) ═══════════════ -/

theorem setMsgContent_not_mem (l : List FMsg) (i : Nat) (c : String)
    (h : ∀ m ∈ l, m.id ≠ i) : setMsgContent l i c = l := by
  induction l with
  | nil => rfl
  | cons m l ih =>
    unfold setMsgContent
    simp only [List.map_cons]
    rw [if_neg (h m (List.mem_cons_self m l))]
    have := ih (fun m' hm' => h m' (List.mem_cons_of_mem m hm'))
    unfold setMsgContent at this
    rw [this]

theorem setMsgContent_fresh (msgs : List FMsg) (u a : FMsg) (c : String)
    (hfresh : ∀ m ∈ msgs, m.id ≠ a.id) (hua : u.id ≠ a.id) :
    setMsgContent (msgs ++ [u, a]) a.id c = msgs ++ [u, { a with content := c }] := by
  unfold setMsgContent
  rw [List.map_append]
  have h1 := setMsgContent_not_mem msgs a.id c hfresh
  unfold setMsgContent at h1
  rw [h1]
  simp [hua]

theorem setMsgTs_fresh (msgs : List FMsg) (u a : FMsg) (ts : Nat)
    (hfresh : ∀ m ∈ msgs, m.id ≠ a.id) (hua : u.id ≠ a.id) :
    setMsgTs (msgs ++ [u, a]) a.id ts = msgs ++ [u, { a with ts := ts }] := by
  unfold setMsgTs
  rw [List.map_append]
  have h1 : msgs.map (fun m => if m.id = a.id then { m with ts := ts } else m) = msgs := by
    induction msgs with
    | nil => rfl
    | cons m l ih =>
      simp only [List.map_cons]
      rw [if_neg (hfresh m (List.mem_cons_self m l)),
        ih (fun m' hm' => hfresh m' (List.mem_cons_of_mem m hm'))]
  rw [h1]
  simp [hua]

/-- C9: when the follow-up stream throws and the exchange was not locally
cancelled, `sendMessage`'s final message list is the prior messages — unchanged —
followed by the new user turn and the pending assistant turn whose content is the
fixed failure notice: whatever chunks were partially streamed, the pending turn
never keeps them, and no other turn is modified. -/
theorem stream_failure_replaces_pending_turn (msgs : List FMsg) (text : String)
    (uid aid ts ts2 : Nat) (chunks : List String)
    (hne : jsTrim text ≠ "") (hfresh : ∀ m ∈ msgs, m.id ≠ aid) (hua : uid ≠ aid) :
    sendMessage msgs text false uid aid ts ts2 chunks true none
      = msgs ++ [⟨uid, .user, jsTrim text, ts⟩, ⟨aid, .assistant, failNotice, ts2⟩] := by
  unfold sendMessage
  rw [if_neg (by simp [hne])]
  dsimp only
  rw [setMsgContent_fresh msgs ⟨uid, .user, jsTrim text, ts⟩ ⟨aid, .assistant, "", ts⟩
    (String.join chunks) hfresh hua]
  rw [if_pos rfl]
  rw [setMsgContent_fresh msgs ⟨uid, .user, jsTrim text, ts⟩
    ⟨aid, .assistant, String.join chunks, ts⟩ failNotice hfresh hua]
  rw [setMsgTs_fresh msgs ⟨uid, .user, jsTrim text, ts⟩
    ⟨aid, .assistant, failNotice, ts⟩ ts2 hfresh hua]

/-- C9 witness: the theorem applied to a concrete conversation with one
previously completed exchange and a partially streamed failing follow-up. -/
theorem stream_failure_replaces_pending_turn_witness :
    sendMessage [⟨0, .user, "orig", 0⟩, ⟨1, .assistant, "first answer", 0⟩]
        "follow-up" false 2 3 5 6 ["par", "tial"] true none
      = [⟨0, .user, "orig", 0⟩, ⟨1, .assistant, "first answer", 0⟩,
         ⟨2, .user, "follow-up", 5⟩, ⟨3, .assistant, failNotice, 6⟩] :=
  stream_failure_replaces_pending_turn
    [⟨0, .user, "orig", 0⟩, ⟨1, .assistant, "first answer", 0⟩]
    "follow-up" 2 3 5 6 ["par", "tial"] (by decide) (by decide) (by decide)

/- ═══════════════ Mock-mode determinism (C10) ═══════════════ -/

/-- C10: in demo/mock mode (Supabase unconfigured or no truthy access token),
`streamAIResponse` returns the mock generator, whose chunk sequence depends only
on the provider and the random draw — two calls with different questions and
different conversation histories give identical chunk sequences — and the
concatenation of all yielded tokens is exactly the drawn canned response,
whitespace preserved. -/
theorem mock_mode_deterministic (cfg : Bool) (tok : Option String) (p : Provider)
    (r : Nat) (q1 q2 : String) (hist1 hist2 : List (List Char))
    (hmode : cfg = false ∨ tokenTruthy tok = false)
    (hr : r < (mockResponses p).length) :
    streamAIResponse cfg tok p q1 hist1 r = streamAIResponse cfg tok p q2 hist2 r
    ∧ streamAIResponse cfg tok p q1 hist1 r = .mock (mockStream p r)
    ∧ (mockStream p r).flatten = ((mockResponses p).getD r "").data := by
  have hcond : (cfg && tokenTruthy tok) = false := by
    rcases hmode with h | h <;> simp [h]
  unfold streamAIResponse
  rw [hcond]
  exact ⟨rfl, rfl, splitWsKeep_join _⟩

/-- C10 witness: the theorem at the claude provider, draw 0, two different
questions and histories, in demo mode. -/
theorem mock_mode_deterministic_witness :
    streamAIResponse false none .claude "a" [] 0
        = streamAIResponse false none .claude "b" ["prior".data] 0
    ∧ streamAIResponse false none .claude "a" [] 0 = .mock (mockStream .claude 0)
    ∧ (mockStream .claude 0).flatten = ((mockResponses .claude).getD 0 "").data :=
  mock_mode_deterministic false none .claude 0 "a" "b" [] ["prior".data]
    (Or.inl rfl) (by decide)

end OmniAsk
